import Mathlib

/-!
Verification of the go-ecobank client core against its specification.

This file shallowly embeds the parts of the repository that the claims
concern: the SHA-512 based secure-hash engine (`generateSecureHashFrom`,
`generateSecureHash`, `ensureSecureHash`), the value stringifier
(`formatToStr`), the temporal codec (`Time.UnmarshalJSON`, `Date`),
the authenticated transport gate (`Client.Do`), the retry predicate
(`retryHTTPCheck`), the response-envelope decoder (`doRequest` /
`unmarshalResponse`) and the error aggregate (`ResponseError`).

Go machine integers are modelled as `Nat` with explicit reduction
modulo `2 ^ 64` where overflow matters; Go strings are modelled as Lean
strings (hashing goes through their UTF-8 bytes); fallible or panicking
code returns `Option`.
-/

namespace Ecobank

/-! ## SHA-512 (crypto/sha512, FIPS 180-4), over `Nat` modulo `2 ^ 64` -/

/-- 2 ^ 64, the modulus for 64-bit words. -/
def w64 : Nat := 18446744073709551616

/-- Right rotation of a 64-bit word (input assumed `< w64`). -/
def rotr64 (x n : Nat) : Nat := ((x >>> n) ||| (x <<< (64 - n))) % w64

/-- Bitwise complement of a 64-bit word. -/
def not64 (x : Nat) : Nat := Nat.xor x (w64 - 1)

/-- SHA-512 Ch function. -/
def shaCh (x y z : Nat) : Nat := Nat.xor (Nat.land x y) (Nat.land (not64 x) z)

/-- SHA-512 Maj function. -/
def shaMaj (x y z : Nat) : Nat :=
  Nat.xor (Nat.xor (Nat.land x y) (Nat.land x z)) (Nat.land y z)

/-- SHA-512 Σ0. -/
def bigSigma0 (x : Nat) : Nat := Nat.xor (Nat.xor (rotr64 x 28) (rotr64 x 34)) (rotr64 x 39)

/-- SHA-512 Σ1. -/
def bigSigma1 (x : Nat) : Nat := Nat.xor (Nat.xor (rotr64 x 14) (rotr64 x 18)) (rotr64 x 41)

/-- SHA-512 σ0. -/
def smallSigma0 (x : Nat) : Nat := Nat.xor (Nat.xor (rotr64 x 1) (rotr64 x 8)) (x >>> 7)

/-- SHA-512 σ1. -/
def smallSigma1 (x : Nat) : Nat := Nat.xor (Nat.xor (rotr64 x 19) (rotr64 x 61)) (x >>> 6)

/-- The 80 SHA-512 round constants (first 64 bits of the fractional parts of
the cube roots of the first 80 primes), written in decimal. -/
def sha512K : List Nat := [
  4794697086780616226, 8158064640168781261, 13096744586834688815,
  16840607885511220156, 4131703408338449720, 6480981068601479193,
  10538285296894168987, 12329834152419229976, 15566598209576043074,
  1334009975649890238, 2608012711638119052, 6128411473006802146,
  8268148722764581231, 9286055187155687089, 11230858885718282805,
  13951009754708518548, 16472876342353939154, 17275323862435702243,
  1135362057144423861, 2597628984639134821, 3308224258029322869,
  5365058923640841347, 6679025012923562964, 8573033837759648693,
  10970295158949994411, 12119686244451234320, 12683024718118986047,
  13788192230050041572, 14330467153632333762, 15395433587784984357,
  489312712824947311, 1452737877330783856, 2861767655752347644,
  3322285676063803686, 5560940570517711597, 5996557281743188959,
  7280758554555802590, 8532644243296465576, 9350256976987008742,
  10552545826968843579, 11727347734174303076, 12113106623233404929,
  14000437183269869457, 14369950271660146224, 15101387698204529176,
  15463397548674623760, 17586052441742319658, 1182934255886127544,
  1847814050463011016, 2177327727835720531, 2830643537854262169,
  3796741975233480872, 4115178125766777443, 5681478168544905931,
  6601373596472566643, 7507060721942968483, 8399075790359081724,
  8693463985226723168, 9568029438360202098, 10144078919501101548,
  10430055236837252648, 11840083180663258601, 13761210420658862357,
  14299343276471374635, 14566680578165727644, 15097957966210449927,
  16922976911328602910, 17689382322260857208, 500013540394364858,
  748580250866718886, 1242879168328830382, 1977374033974150939,
  2944078676154940804, 3659926193048069267, 4368137639120453308,
  4836135668995329356, 5532061633213252278, 6448918945643986474,
  6902733635092675308, 7801388544844847127]

/-- Big-endian byte rendering of a value in `n` bytes. -/
def beBytes : Nat → Nat → List Nat
  | 0, _ => []
  | n + 1, v => beBytes n (v / 256) ++ [v % 256]

/-- SHA-512 message padding: append 0x80, zeros, then the 128-bit
big-endian bit length, reaching a multiple of 128 bytes. -/
def sha512Pad (msg : List Nat) : List Nat :=
  let l := msg.length
  let padZeros := (128 - ((l + 17) % 128)) % 128
  msg ++ [0x80] ++ List.replicate padZeros 0 ++ beBytes 16 (l * 8)

/-- Group bytes into big-endian 64-bit words. -/
def toWords : List Nat → List Nat
  | b0 :: b1 :: b2 :: b3 :: b4 :: b5 :: b6 :: b7 :: rest =>
    (((((((b0 * 256 + b1) * 256 + b2) * 256 + b3) * 256 + b4) * 256 + b5) * 256 + b6) * 256 + b7)
      :: toWords rest
  | _ => []

/-- Split a word list into 16-word blocks. -/
def toBlocks (ws : List Nat) : List (List Nat) :=
  if ws = [] then [] else ws.take 16 :: toBlocks (ws.drop 16)
termination_by ws.length
decreasing_by
  simp only [List.length_drop]
  cases ws with
  | nil => simp_all
  | cons a l => simp; omega

/-- Extend a 16-word block by `n` further schedule words. -/
def extendSchedule (ws : List Nat) : Nat → List Nat
  | 0 => ws
  | n + 1 =>
    let cur := extendSchedule ws n
    let len := cur.length
    cur ++ [(smallSigma1 (cur.getD (len - 2) 0) + cur.getD (len - 7) 0 +
             smallSigma0 (cur.getD (len - 15) 0) + cur.getD (len - 16) 0) % w64]

/-- The eight 64-bit working variables of SHA-512. -/
structure Sha512State where
  a : Nat
  b : Nat
  c : Nat
  d : Nat
  e : Nat
  f : Nat
  g : Nat
  hh : Nat
deriving Repr, DecidableEq

/-- Initial SHA-512 hash value (first 64 bits of the fractional parts of the
square roots of the first 8 primes), written in decimal. -/
def sha512Init : Sha512State :=
  ⟨7640891576956012808, 13503953896175478587,
   4354685564936845355, 11912009170470909681,
   5840696475078001361, 11170449401992604703,
   2270897969802886507, 6620516959819538809⟩

/-- One SHA-512 round. -/
def sha512Round (st : Sha512State) (k w : Nat) : Sha512State :=
  let t1 := (st.hh + bigSigma1 st.e + shaCh st.e st.f st.g + k + w) % w64
  let t2 := (bigSigma0 st.a + shaMaj st.a st.b st.c) % w64
  ⟨(t1 + t2) % w64, st.a, st.b, st.c, (st.d + t1) % w64, st.e, st.f, st.g⟩

/-- Compress one 16-word block into the running state. -/
def sha512Compress (st0 : Sha512State) (block : List Nat) : Sha512State :=
  let ws := extendSchedule block 64
  let st := (List.zip sha512K ws).foldl (fun s kw => sha512Round s kw.1 kw.2) st0
  ⟨(st0.a + st.a) % w64, (st0.b + st.b) % w64, (st0.c + st.c) % w64, (st0.d + st.d) % w64,
   (st0.e + st.e) % w64, (st0.f + st.f) % w64, (st0.g + st.g) % w64, (st0.hh + st.hh) % w64⟩

/-- SHA-512 digest (64 bytes) of a byte sequence. -/
def sha512Bytes (msg : List Nat) : List Nat :=
  let blocks := toBlocks (toWords (sha512Pad msg))
  let st := blocks.foldl sha512Compress sha512Init
  List.flatten ([st.a, st.b, st.c, st.d, st.e, st.f, st.g, st.hh].map (beBytes 8))

/-- Lowercase hexadecimal digit. -/
def hexDigit (n : Nat) : Char := if n < 10 then Char.ofNat (48 + n) else Char.ofNat (87 + n)

/-- Lowercase hexadecimal rendering of one byte. -/
def byteToHex (b : Nat) : String := String.mk [hexDigit (b / 16), hexDigit (b % 16)]

/-- Lowercase hexadecimal rendering of a byte list (hex.EncodeToString). -/
def bytesToHex : List Nat → String
  | [] => ""
  | b :: rest => byteToHex b ++ bytesToHex rest

/-- The UTF-8 bytes of a string (Go `[]byte(s)`). -/
def strToBytes (s : String) : List Nat := s.toUTF8.toList.map (fun b => b.toNat)

/-- Lowercase-hex SHA-512 digest of the UTF-8 bytes of a string. -/
def sha512Hex (s : String) : String := bytesToHex (sha512Bytes (strToBytes s))

/-! ## Value stringifier (helpers.go, `formatToStr`) and request field model

A Go request struct is modelled as a list of fields in declaration order.
Each field carries the reflection metadata that `generateSecureHashFrom`
inspects: whether `reflect.Value.CanInterface` holds (false exactly for
unexported fields), whether the field is anonymous (embedded), and the
`securehash` and `json` struct tags. -/

/-- Reflection metadata of one struct field, as read by
`generateSecureHashFrom` via `reflect.StructField` and `Tag.Get`. -/
structure FieldMeta where
  canInterface : Bool
  anonymous : Bool
  securehashTag : String
  jsonTag : String
deriving Repr, DecidableEq

/-- A Go value as dispatched on by `formatToStr`'s type switch.
Constructors mirror the switch cases of helpers.go. `float64` / `float32`
carry their `strconv.FormatFloat` rendering (bit-level floating point is
outside the embedding); `bytes` carries the string the byte slice converts
to; `stringer` carries the `String()` result of a value implementing
`fmt.Stringer` (e.g. the library's own `Time`); `structV` is a struct value
that implements no recognized interface (it falls to the default case of the
switch and is the shape `generateSecureHashFrom` recurses into); `other` is
any other unrecognized value (default case), tagged so that distinct
unrecognized values exist. -/
inductive GoValue where
  | str (s : String)
  | decimal (value : Int) (exp : Int)
  | boolean (b : Bool)
  | float64 (rendered : String)
  | float32 (rendered : String)
  | intV (i : Int)
  | int64 (i : Int)
  | int32 (i : Int)
  | int16 (i : Int)
  | int8 (i : Int)
  | uintV (n : Nat)
  | uint64 (n : Nat)
  | uint32 (n : Nat)
  | uint16 (n : Nat)
  | uint8 (n : Nat)
  | jsonNumber (s : String)
  | bytes (s : String)
  | stringer (s : String)
  | structV (fields : List (FieldMeta × GoValue))
  | other (id : Nat)

/-- Drop trailing `'0'` characters. -/
def trimZeros (s : List Char) : List Char :=
  (s.reverse.dropWhile (fun c => c == '0')).reverse

/-- `shopspring/decimal.Decimal.String()`: the minimal fixed-point rendering
of `value * 10 ^ exp` (no exponent notation, trailing fractional zeros
trimmed). -/
def decimalString (value : Int) (exp : Int) : String :=
  if 0 ≤ exp then
    toString (value * (10 : Int) ^ exp.toNat)
  else
    let digits := (toString value.natAbs).toList
    let e := (-exp).toNat
    let intPart := if digits.length > e then String.mk (digits.take (digits.length - e)) else "0"
    let fracDigits :=
      if digits.length > e then digits.drop (digits.length - e)
      else List.replicate (e - digits.length) '0' ++ digits
    let frac := trimZeros fracDigits
    let number := if frac.isEmpty then intPart else intPart ++ "." ++ String.mk frac
    if value < 0 then "-" ++ number else number

/-- helpers.go `formatToStr`: the canonical string form of a field value.
Each constructor corresponds to one case of the Go type switch; `structV`
and `other` hit the `default` case and yield the empty string. -/
def formatToStr : GoValue → String
  | .str s => s
  | .decimal value exp => decimalString value exp
  | .boolean b => if b then "true" else "false"
  | .float64 rendered => rendered
  | .float32 rendered => rendered
  | .intV i => toString i
  | .int64 i => toString i
  | .int32 i => toString i
  | .int16 i => toString i
  | .int8 i => toString i
  | .uintV n => toString n
  | .uint64 n => toString n
  | .uint32 n => toString n
  | .uint16 n => toString n
  | .uint8 n => toString n
  | .jsonNumber s => s
  | .bytes s => s
  | .stringer s => s
  | .structV _ => ""
  | .other _ => ""

/-! ## Secure-hash engine (part_004, `generateSecureHash*`, `ensureSecureHash`) -/

/-- part_004 `generateSecureHash`: lowercase-hex SHA-512 of
`[]byte(data + key)`. -/
def generateSecureHash (data key : String) : String := sha512Hex (data ++ key)

mutual

/-- part_004 `generateSecureHashFrom`. The pointer dereference at the top is
the identity in this model. `none` models a reflection panic: `NumField` on a
non-struct value, or `Interface()` on a field that cannot be interfaced.
The outer `typ.Kind() == reflect.Struct` conjunct of the paymentHeader test
is always true inside the field loop and is dropped. -/
def generateSecureHashFrom (v : GoValue) (key : String) : Option String :=
  match v with
  | .structV fields => secureHashLoop fields key ""
  | _ => none

/-- The field loop of `generateSecureHashFrom`, with `b` the
`strings.Builder` accumulator. The paymentHeader test precedes the skip
tests, exactly as in the source. -/
def secureHashLoop (fields : List (FieldMeta × GoValue)) (key : String) (b : String) :
    Option String :=
  match fields with
  | [] => some (generateSecureHash b key)
  | (m, v) :: rest =>
    if m.jsonTag == "paymentHeader" then
      if m.canInterface then generateSecureHashFrom v key else none
    else if !m.canInterface || m.anonymous || m.securehashTag == "ignore" ||
        m.jsonTag == "-" || m.jsonTag == "secureHash" then
      secureHashLoop rest key b
    else
      secureHashLoop rest key (b ++ formatToStr v)

end

/-- A request struct implementing `secureHasher`: its embedded
`secureHashOption` holds the `SecureHash` field (read by `GetHash`, written
by `SetHash`); `otherFields` are the remaining declared fields in order. -/
structure HashedRequest where
  otherFields : List (FieldMeta × GoValue)
  secureHash : String

/-- The embedded `secureHashOption` field itself: anonymous, so the hash
walk skips it. -/
def secureHashOptionMeta : FieldMeta := ⟨true, true, "", ""⟩

/-- The `SecureHash` field inside `secureHashOption`, tagged
`json:"secureHash" securehash:"ignore"`. -/
def secureHashFieldMeta : FieldMeta := ⟨true, false, "ignore", "secureHash"⟩

/-- The full struct value of a `HashedRequest` as seen by reflection: the
declared fields followed by the embedded `secureHashOption`. -/
def hashedValue (r : HashedRequest) : GoValue :=
  .structV (r.otherFields ++
    [(secureHashOptionMeta, .structV [(secureHashFieldMeta, .str r.secureHash)])])

/-- part_004 `ensureSecureHash`: compute and inject the hash only when
`GetHash()` is empty. `none` propagates a reflection panic from
`generateSecureHashFrom`. -/
def ensureSecureHash (key : String) (r : HashedRequest) : Option HashedRequest :=
  if r.secureHash == "" then
    (generateSecureHashFrom (hashedValue r) key).map (fun h => { r with secureHash := h })
  else some r

/-! ## Temporal codec (helpers.go, `Time` / `Date`) -/

/-- helpers.go `timeFormat`. -/
def timeFormatLayout : String := "2006-01-02T15:04:05.999"

/-- helpers.go `dateFormat`: the fixed compact numeric date layout. -/
def dateFormatLayout : String := "20060102"

/-- `time.DateTime`. -/
def goDateTime : String := "2006-01-02 15:04:05"

/-- `time.RFC3339`. -/
def goRFC3339 : String := "2006-01-02T15:04:05Z07:00"

/-- `time.DateOnly`. -/
def goDateOnly : String := "2006-01-02"

/-- helpers.go `formats`: the initial process-wide candidate layout list. -/
def defaultFormats : List String := [timeFormatLayout, goDateTime, goRFC3339, goDateOnly]

/-- helpers.go `AddTimeFormat`: appends layouts to the process-wide list. -/
def addTimeFormat (fmts layouts : List String) : List String := fmts ++ layouts

/-- The quote-stripping preamble of `Time.UnmarshalJSON`. -/
def stripQuotes (s : String) : String :=
  if 2 ≤ s.length && s.front == '"' && s.back == '"' then (s.drop 1).dropRight 1 else s

/-- Error text of a failed parse attempt (`""` for a success; only used on
failures). -/
def exceptErr {α : Type} : Except String α → String
  | .error e => e
  | .ok _ => ""

/-- Whether a parse attempt failed. -/
def parseFails {α : Type} (r : Except String α) : Bool :=
  match r with
  | .error _ => true
  | .ok _ => false

/-- The outcome of `Time.UnmarshalJSON`: `time` is `some` when a layout
parsed successfully (`t.time` was set); `err` is the list of per-layout
failures joined into the returned error (`[]` models a nil error). -/
structure UnmarshalOutcome (α : Type) where
  time : Option α
  err : List String
deriving Repr, DecidableEq

/-- The format loop of `Time.UnmarshalJSON`: try each candidate layout in
order; the first success resets the error and stops; failures are joined
(`errors.Join`) in order. `parse` abstracts Go's `time.Parse`. -/
def tryFormats {α : Type} (parse : String → String → Except String α)
    (fmts : List String) (s : String) (errs : List String) : UnmarshalOutcome α :=
  match fmts with
  | [] => ⟨none, errs⟩
  | f :: rest =>
    match parse f s with
    | .ok t => ⟨some t, []⟩
    | .error e => tryFormats parse rest s (errs ++ [e])

/-- helpers.go `Time.UnmarshalJSON`: strip surrounding quotes, try the
attached layout first when one is present, then the process-wide list. -/
def timeUnmarshalJSON {α : Type} (parse : String → String → Except String α)
    (fmts : List String) (layout : String) (b : String) : UnmarshalOutcome α :=
  let s := stripQuotes b
  if layout == "" then
    tryFormats parse fmts s []
  else
    match parse layout s with
    | .ok t => ⟨some t, []⟩
    | .error e => tryFormats parse fmts s [e]

/-- A civil point in time, assumed UTC (the locations of the claims' inputs). -/
structure GoTime where
  year : Nat
  month : Nat
  day : Nat
  hour : Nat
  minute : Nat
  second : Nat
  nsec : Nat
deriving Repr, DecidableEq

/-- Left-pad a number with zeros to `width` digits. -/
def padNum (width n : Nat) : String :=
  let s := toString n
  String.mk (List.replicate (width - s.length) '0') ++ s

/-- `time.RFC3339Nano` rendering of a UTC instant, as produced by
`time.Time.Format`: fractional seconds with trailing zeros trimmed, omitted
when zero; UTC offset rendered `Z`. -/
def rfc3339NanoUTC (t : GoTime) : String :=
  let base := padNum 4 t.year ++ "-" ++ padNum 2 t.month ++ "-" ++ padNum 2 t.day ++ "T" ++
    padNum 2 t.hour ++ ":" ++ padNum 2 t.minute ++ ":" ++ padNum 2 t.second
  let frac := if t.nsec == 0 then "" else "." ++ String.mk (trimZeros (padNum 9 t.nsec).toList)
  base ++ frac ++ "Z"

/-- `time.Time.MarshalJSON` (Go stdlib): the RFC3339Nano rendering in
quotes. -/
def timeTimeMarshalJSON (t : GoTime) : String := "\"" ++ rfc3339NanoUTC t ++ "\""

/-- helpers.go `Time`: an instant plus an optional output layout. -/
structure GoTimeValue where
  time : GoTime
  layout : String
deriving Repr, DecidableEq

/-- helpers.go `NewTimeWithLayout`. -/
def NewTimeWithLayout (t : GoTime) (layout : String) : GoTimeValue := ⟨t, layout⟩

/-- helpers.go `Date`: embeds `Time`. -/
structure GoDate where
  toTime : GoTimeValue
deriving Repr, DecidableEq

/-- helpers.go `NewDate`: a `Date` whose attached layout is the compact
numeric date layout. -/
def NewDate (t : GoTime) : GoDate := ⟨NewTimeWithLayout t dateFormatLayout⟩

/-- helpers.go line 139, `Date.MarshalJSON`: returns
`date.time.MarshalJSON()` — the embedded `time.Time`'s stdlib marshaler
(`date.time` is the promoted inner `time.Time` field, not the wrapper
`Time`), so the attached layout is not consulted. -/
def dateMarshalJSON (d : GoDate) : String := timeTimeMarshalJSON d.toTime.time

/-- Modelled from the spec: the serialization the specification prescribes
for a date-only Temporal — the instant formatted with the fixed compact
numeric layout (4-digit year, 2-digit month, 2-digit day, no separators) as
a quoted JSON string. -/
def specDateSerialization (t : GoTime) : String :=
  "\"" ++ padNum 4 t.year ++ padNum 2 t.month ++ padNum 2 t.day ++ "\""

/-! ## Authenticated transport (part_004, `Client.Do`, `retryHTTPCheck`) -/

/-- The client fields `Client.Do` reads for authentication.
`tokenExpiresAt = none` models the zero `time.Time` (`IsZero()`); instants
are abstract `Nat` ticks. -/
structure ClientAuth where
  token : String
  tokenExpiresAt : Option Nat
  username : String
  password : String
deriving Repr, DecidableEq

/-- What `Client.Do` does before any network activity. -/
inductive AuthGate where
  | failTokenExpired
  | login
  | proceed (token : String)
deriving Repr, DecidableEq

/-- The authentication gate at the top of `Client.Do`: with an empty or
expired token and no credentials, return `errors.New("token expired")`
before any request; with credentials, re-login; otherwise proceed with the
stored token. `time.Now().After(e)` is strict. -/
def doAuthGate (c : ClientAuth) (now : Nat) : AuthGate :=
  let tokenInvalid := c.token == "" ||
    (match c.tokenExpiresAt with
     | none => false
     | some e => decide (e < now))
  if tokenInvalid then
    if c.username == "" && c.password == "" then .failTokenExpired
    else .login
  else .proceed c.token

/-- part_004 `retryHTTPCheck`: `ctxErr` is `ctx.Err()`, `err` the transport
error, `statusCode` the completed response's status (meaningful when
`err = none`). Returns (retry?, error). -/
def retryHTTPCheck (disableRetries : Bool) (ctxErr err : Option String)
    (statusCode : Nat) : Bool × Option String :=
  match ctxErr with
  | some ce => (false, some ce)
  | none =>
    match err with
    | some e => (false, some e)
    | none =>
      if !disableRetries && (statusCode == 429 || decide (500 ≤ statusCode)) then (true, none)
      else (false, none)

/-! ## Envelope codec (part_004, `doRequest` / `unmarshalResponse`) -/

/-- part_004 `responseData`: the decoded response envelope. `responseContent`
is the raw `json.RawMessage` (`none` = nil/absent); `responseTime` is kept
as the raw timestamp text (its decoding is not at issue in the claims);
`errors` is the decoded `ResponseError` slice, `none` modelling a nil slice
(field absent or null). -/
structure ResponseData where
  responseCode : Int
  responseMessage : String
  responseContent : Option String
  responseTime : String
  errors : Option (List String)
deriving Repr, DecidableEq

/-- part_004 `emptyResponseContent`: the two bytes 0x22 0x22, a JSON-encoded
empty string. -/
def emptyResponseContentStr : String := "\"\""

/-- What `unmarshalResponse` does with the raw content. -/
inductive DecodeAction where
  | noop
  | decodeInto (raw : String)
deriving Repr, DecidableEq

/-- part_004 `unmarshalResponse`: nil or empty-string-sentinel content is a
no-op success; otherwise the raw content is unmarshaled into the caller's
target. -/
def unmarshalResponse (content : Option String) : DecodeAction :=
  match content with
  | none => .noop
  | some raw => if raw == emptyResponseContentStr then .noop else .decodeInto raw

/-- The outcome of the envelope-processing tail of `doRequest`. -/
inductive EnvelopeOutcome where
  | apiErrors (errs : List String)
  | content (action : DecodeAction)
deriving Repr, DecidableEq

/-- The response metadata populated from the envelope. -/
structure RespMeta where
  code : Int
  message : String
  time : String
deriving Repr, DecidableEq

/-- The envelope branch of part_004 `doRequest` (target not `*BearerToken`,
`v ≠ nil`, envelope decode succeeded): populate the metadata, then return
the error aggregate when the `errors` field is non-nil — before and instead
of any content decoding — else hand the raw content to
`unmarshalResponse`. -/
def processResponseData (rd : ResponseData) : RespMeta × EnvelopeOutcome :=
  (⟨rd.responseCode, rd.responseMessage, rd.responseTime⟩,
   match rd.errors with
   | some errs => .apiErrors errs
   | none => .content (unmarshalResponse rd.responseContent))

/-! ## Error aggregate (error.go, `ResponseError`) -/

/-- error.go `ResponseError` is `[]string`. A Go slice value is its element
list plus whether the slice is nil (the zero value is nil); `encoding/json`
marshals a nil slice as `null` and a non-nil empty slice as `[]`. -/
structure ResponseErrorSlice where
  isNil : Bool
  elems : List String
deriving Repr, DecidableEq

/-- The zero value `var e ResponseError`: a nil slice. -/
def responseErrorZero : ResponseErrorSlice := ⟨true, []⟩

/-- error.go `Add`: `*e = append(*e, err)`; appending always yields a
non-nil slice. -/
def responseErrorAdd (e : ResponseErrorSlice) (msg : String) : ResponseErrorSlice :=
  ⟨false, e.elems ++ [msg]⟩

/-- error.go `Len`. -/
def responseErrorLen (e : ResponseErrorSlice) : Nat := e.elems.length

/-- error.go `Error` (and `String`, which returns it): empty when no
messages, else the messages joined with newlines. -/
def responseErrorString (e : ResponseErrorSlice) : String :=
  if responseErrorLen e == 0 then "" else String.intercalate "\n" e.elems

/-- JSON string quoting (escaping of quote and backslash; control-character
escapes are not exercised by the claims). -/
def jsonQuote (s : String) : String :=
  "\"" ++ String.join (s.toList.map (fun c =>
    if c == '"' then "\\\"" else if c == '\\' then "\\\\" else String.mk [c])) ++ "\""

/-- `encoding/json` marshaling of a `[]string` value: `null` for a nil
slice, else the JSON array of its quoted elements. -/
def responseErrorMarshalJSON (e : ResponseErrorSlice) : String :=
  if e.isNil then "null"
  else "[" ++ String.intercalate "," (e.elems.map jsonQuote) ++ "]"

/-! ## Specification-side definitions

These follow the claims' wording, to be compared with the definitions
embedded from the source. -/

/-- The claim's field-skip condition: a field is skipped exactly when it is
not externally visible, is embedded/anonymous, carries the hash-exclusion
marker, or its wire-name is suppressed (`json:"-"`, never serialized) or
names the hash-output field `secureHash`. -/
def specSkip (m : FieldMeta) : Bool :=
  !m.canInterface || m.anonymous || m.securehashTag == "ignore" ||
    m.jsonTag == "-" || m.jsonTag == "secureHash"

/-- The claim's hash input: the concatenation, in field-declaration order
with no separators, of the canonical string of each retained field's
value. -/
def specHashInput (fields : List (FieldMeta × GoValue)) : String :=
  fields.foldl (fun acc mv => if specSkip mv.1 then acc else acc ++ formatToStr mv.2) ""

/-- Values that fall to the `default` case of `formatToStr`'s type switch
(types outside the recognized set). -/
def unrecognizedValue : GoValue → Bool
  | .structV _ => true
  | .other _ => true
  | _ => false

/-- Two fields that the hash input cannot distinguish: same metadata, and
either the same value or both values of unrecognized type on a
non-payment-header field. -/
def hashEquivField (x y : FieldMeta × GoValue) : Prop :=
  x.1 = y.1 ∧ (x.2 = y.2 ∨
    (unrecognizedValue x.2 = true ∧ unrecognizedValue y.2 = true ∧
      x.1.jsonTag ≠ "paymentHeader"))

/-! ## Helper lemmas -/

theorem formatToStr_unrecognized (v : GoValue) (h : unrecognizedValue v = true) :
    formatToStr v = "" := by
  cases v <;> simp_all [unrecognizedValue, formatToStr]

theorem secureHashLoop_no_header (key : String) :
    ∀ (fields : List (FieldMeta × GoValue)) (b : String),
      (∀ mv ∈ fields, mv.1.jsonTag ≠ "paymentHeader") →
      secureHashLoop fields key b =
        some (generateSecureHash
          (fields.foldl (fun acc mv => if specSkip mv.1 then acc else acc ++ formatToStr mv.2) b)
          key)
  | [], b, _ => rfl
  | (m, v) :: rest, b, hno => by
    have hm : m.jsonTag ≠ "paymentHeader" := hno (m, v) (List.mem_cons_self _ _)
    have hbeq : (m.jsonTag == "paymentHeader") = false := by
      simp [hm]
    have hrest : ∀ mv ∈ rest, mv.1.jsonTag ≠ "paymentHeader" :=
      fun mv hmv => hno mv (List.mem_cons_of_mem _ hmv)
    by_cases hs : specSkip m = true
    · rw [secureHashLoop, hbeq]
      simp only [specSkip] at hs
      simp only [Bool.false_eq_true, if_false, hs, if_true, List.foldl_cons, specSkip]
      exact secureHashLoop_no_header key rest b hrest
    · rw [secureHashLoop, hbeq]
      simp only [specSkip] at hs
      simp only [Bool.false_eq_true, if_false, hs, List.foldl_cons, specSkip]
      exact secureHashLoop_no_header key rest (b ++ formatToStr v) hrest

theorem secureHashLoop_finds_header (key : String) (m : FieldMeta) (v : GoValue)
    (hvis : m.canInterface = true) :
    ∀ (fields : List (FieldMeta × GoValue)) (b : String),
      fields.find? (fun mv => mv.1.jsonTag == "paymentHeader") = some (m, v) →
      secureHashLoop fields key b = generateSecureHashFrom v key
  | [], b, hfind => by simp [List.find?] at hfind
  | (m0, v0) :: rest, b, hfind => by
    by_cases hph : (m0.jsonTag == "paymentHeader") = true
    · simp only [List.find?, hph] at hfind
      injection hfind with hpair
      have hm : m0 = m := congrArg Prod.fst hpair
      have hv : v0 = v := congrArg Prod.snd hpair
      subst hm; subst hv
      rw [secureHashLoop, if_pos hph, if_pos hvis]
    · have hph0 : (m0.jsonTag == "paymentHeader") = false := by
        revert hph; cases m0.jsonTag == "paymentHeader" <;> simp
      simp only [List.find?, hph0] at hfind
      rw [secureHashLoop, hph0]
      simp only [Bool.false_eq_true, if_false]
      by_cases hs : (!m0.canInterface || m0.anonymous || m0.securehashTag == "ignore" ||
          m0.jsonTag == "-" || m0.jsonTag == "secureHash") = true
      · rw [if_pos hs]
        exact secureHashLoop_finds_header key m v hvis rest b hfind
      · rw [if_neg hs]
        exact secureHashLoop_finds_header key m v hvis rest (b ++ formatToStr v0) hfind

theorem secureHashLoop_hashEquiv (key : String) :
    ∀ (fs1 fs2 : List (FieldMeta × GoValue)) (b : String),
      List.Forall₂ hashEquivField fs1 fs2 →
      secureHashLoop fs1 key b = secureHashLoop fs2 key b
  | _, _, b, .nil => rfl
  | (m1, v1) :: r1, (m2, v2) :: r2, b, .cons hxy hrest => by
    obtain ⟨hm, hv⟩ := hxy
    simp only at hm
    subst hm
    rw [secureHashLoop]
    conv_rhs => rw [secureHashLoop]
    by_cases hph : (m1.jsonTag == "paymentHeader") = true
    · rw [if_pos hph, if_pos hph]
      have hveq : v1 = v2 := by
        rcases hv with h | ⟨_, _, hne⟩
        · exact h
        · exact absurd (by simpa using hph) hne
      rw [hveq]
    · have hph0 : (m1.jsonTag == "paymentHeader") = false := by
        revert hph; cases m1.jsonTag == "paymentHeader" <;> simp
      rw [hph0]
      simp only [Bool.false_eq_true, if_false]
      by_cases hs : (!m1.canInterface || m1.anonymous || m1.securehashTag == "ignore" ||
          m1.jsonTag == "-" || m1.jsonTag == "secureHash") = true
      · rw [if_pos hs, if_pos hs]
        exact secureHashLoop_hashEquiv key r1 r2 b hrest
      · rw [if_neg hs, if_neg hs]
        have hstr : formatToStr v1 = formatToStr v2 := by
          rcases hv with h | ⟨hu1, hu2, _⟩
          · rw [show v1 = v2 from h]
          · rw [formatToStr_unrecognized v1 hu1, formatToStr_unrecognized v2 hu2]
        rw [hstr]
        exact secureHashLoop_hashEquiv key r1 r2 (b ++ formatToStr v2) hrest

theorem tryFormats_first_success {α : Type} (parse : String → String → Except String α)
    (s f : String) (post : List String) (t : α) (hok : parse f s = .ok t) :
    ∀ (pre : List String) (errs : List String),
      (∀ g ∈ pre, parseFails (parse g s) = true) →
      tryFormats parse (pre ++ f :: post) s errs = ⟨some t, []⟩
  | [], errs, _ => by rw [List.nil_append, tryFormats, hok]
  | g :: pre, errs, hfail => by
    rw [List.cons_append, tryFormats]
    have hg : parseFails (parse g s) = true := hfail g (List.mem_cons_self _ _)
    cases hparse : parse g s with
    | ok t0 => rw [hparse] at hg; simp [parseFails] at hg
    | error e =>
      exact tryFormats_first_success parse s f post t hok pre (errs ++ [e])
        (fun g2 hg2 => hfail g2 (List.mem_cons_of_mem _ hg2))

theorem tryFormats_all_fail {α : Type} (parse : String → String → Except String α)
    (s : String) :
    ∀ (fmts : List String) (errs : List String),
      (∀ f ∈ fmts, parseFails (parse f s) = true) →
      tryFormats parse fmts s errs =
        ⟨none, errs ++ fmts.map (fun f => exceptErr (parse f s))⟩
  | [], errs, _ => by simp [tryFormats]
  | f :: rest, errs, hfail => by
    cases hparse : parse f s with
    | ok t0 =>
      have hg := hfail f (List.mem_cons_self _ _)
      rw [hparse] at hg
      simp [parseFails] at hg
    | error e =>
      have hrec := tryFormats_all_fail parse s rest (errs ++ [e])
        (fun g hg => hfail g (List.mem_cons_of_mem _ hg))
      simp only [tryFormats, hparse]
      rw [hrec]
      simp [hparse, exceptErr]

theorem beBytes_length : ∀ n v, (beBytes n v).length = n
  | 0, _ => rfl
  | n + 1, v => by simp [beBytes, beBytes_length n]

theorem sha512Bytes_length (msg : List Nat) : (sha512Bytes msg).length = 64 := by
  simp [sha512Bytes, beBytes_length]

theorem byteToHex_length (b : Nat) : (byteToHex b).length = 2 := rfl

theorem bytesToHex_length : ∀ bs : List Nat, (bytesToHex bs).length = 2 * bs.length
  | [] => rfl
  | b :: rest => by
    simp [bytesToHex, String.length_append, byteToHex_length, bytesToHex_length rest]
    ring

theorem generateSecureHash_length (data key : String) :
    (generateSecureHash data key).length = 128 := by
  simp [generateSecureHash, sha512Hex, bytesToHex_length, sha512Bytes_length]

mutual

theorem generateSecureHashFrom_some_length (v : GoValue) (key d : String)
    (hs : generateSecureHashFrom v key = some d) : d.length = 128 := by
  match v with
  | .structV fields =>
    rw [generateSecureHashFrom] at hs
    exact secureHashLoop_some_length fields key "" d hs
  | .str s | .decimal a b | .boolean b | .float64 s | .float32 s
  | .intV i | .int64 i | .int32 i | .int16 i | .int8 i
  | .uintV n | .uint64 n | .uint32 n | .uint16 n | .uint8 n
  | .jsonNumber s | .bytes s | .stringer s | .other i =>
    simp [generateSecureHashFrom] at hs

theorem secureHashLoop_some_length (fields : List (FieldMeta × GoValue)) (key b d : String)
    (hs : secureHashLoop fields key b = some d) : d.length = 128 := by
  match fields with
  | [] =>
    rw [secureHashLoop] at hs
    injection hs with hd
    rw [← hd]
    exact generateSecureHash_length b key
  | (m, v) :: rest =>
    rw [secureHashLoop] at hs
    by_cases hph : (m.jsonTag == "paymentHeader") = true
    · rw [if_pos hph] at hs
      by_cases hci : m.canInterface = true
      · rw [if_pos hci] at hs
        exact generateSecureHashFrom_some_length v key d hs
      · rw [if_neg hci] at hs
        exact absurd hs (by simp)
    · rw [if_neg hph] at hs
      by_cases hsk : (!m.canInterface || m.anonymous || m.securehashTag == "ignore" ||
          m.jsonTag == "-" || m.jsonTag == "secureHash") = true
      · rw [if_pos hsk] at hs
        exact secureHashLoop_some_length rest key b d hs
      · rw [if_neg hsk] at hs
        exact secureHashLoop_some_length rest key (b ++ formatToStr v) d hs

end

/-! ## Claims -/

/-- C1: for every request struct with no nested payment-header field and
every shared secret, `generateSecureHashFrom` equals the lowercase-hex
SHA-512 digest of the UTF-8 bytes of `s ++ key`, where `s` is the
concatenation, in field-declaration order with no separators, of the
canonical string of each retained field's value; a field is skipped exactly
when it is not externally visible, is anonymous, carries the
`securehash:"ignore"` marker, or its `json` wire-name is `-` or
`secureHash`. -/
theorem secureHash_flat_request (fields : List (FieldMeta × GoValue)) (key : String)
    (hno : ∀ mv ∈ fields, mv.1.jsonTag ≠ "paymentHeader") :
    generateSecureHashFrom (.structV fields) key =
      some (sha512Hex (specHashInput fields ++ key)) := by
  rw [generateSecureHashFrom, secureHashLoop_no_header key fields "" hno]
  rfl

/-- A flat request used to witness C1. -/
def c1Fields : List (FieldMeta × GoValue) :=
  [(⟨true, false, "", "requestId"⟩, GoValue.str "123"),
   (⟨false, false, "", "hidden"⟩, GoValue.str "no"),
   (⟨true, true, "", ""⟩, GoValue.structV []),
   (⟨true, false, "", "amount"⟩, GoValue.decimal 1500 (-2))]

/-- C1 witness: the theorem applied at a concrete flat request. -/
theorem secureHash_flat_request_witness :
    (∀ mv ∈ c1Fields, mv.1.jsonTag ≠ "paymentHeader") ∧
    generateSecureHashFrom (.structV c1Fields) "labkey" =
      some (sha512Hex (specHashInput c1Fields ++ "labkey")) :=
  ⟨by decide, secureHash_flat_request c1Fields "labkey" (by decide)⟩

/-- C2 (amended): for every request whose first field with wire-name
`paymentHeader` is externally visible, the hash of the request equals the
hash of that field's value alone — no other outer field influences the
digest. -/
theorem secureHash_nested_header (fields : List (FieldMeta × GoValue)) (m : FieldMeta)
    (v : GoValue) (key : String)
    (hfind : fields.find? (fun mv => mv.1.jsonTag == "paymentHeader") = some (m, v))
    (hvis : m.canInterface = true) :
    generateSecureHashFrom (.structV fields) key = generateSecureHashFrom v key := by
  rw [generateSecureHashFrom]
  exact secureHashLoop_finds_header key m v hvis fields "" hfind

/-- C2 counterexample: a request whose (only) `paymentHeader`-tagged field
is unexported. `reflect.Value.Interface` panics on it (modelled `none`), so
the hash of the request is not the hash of the nested value, contradicting
the claim as stated, which quantifies over every request with a
payment-header field. -/
theorem secureHash_nested_header_unexported_cex :
    generateSecureHashFrom
        (.structV [(⟨false, false, "", "paymentHeader"⟩, GoValue.structV [])]) "k" ≠
      generateSecureHashFrom (GoValue.structV []) "k" := by
  have h1 : generateSecureHashFrom
      (.structV [(⟨false, false, "", "paymentHeader"⟩, GoValue.structV [])]) "k" = none := by
    rw [generateSecureHashFrom, secureHashLoop, if_pos (by decide), if_neg (by decide)]
  have h2 : generateSecureHashFrom (GoValue.structV []) "k" =
      some (generateSecureHash "" "k") := by
    rw [generateSecureHashFrom, secureHashLoop]
  rw [h1, h2]
  exact fun hc => Option.noConfusion hc

/-- The outer request used to witness C2: an exported payment header
followed by an ignored sibling field. -/
def c2Fields : List (FieldMeta × GoValue) :=
  [(⟨true, false, "", "paymentHeader"⟩,
      GoValue.structV [(⟨true, false, "", "batchid"⟩, GoValue.str "B1")]),
   (⟨true, false, "", "extension"⟩, GoValue.str "outer-noise")]

/-- C2 witness: the amended theorem applied at a concrete request. -/
theorem secureHash_nested_header_witness :
    c2Fields.find? (fun mv => mv.1.jsonTag == "paymentHeader") =
      some (⟨true, false, "", "paymentHeader"⟩,
        GoValue.structV [(⟨true, false, "", "batchid"⟩, GoValue.str "B1")]) ∧
    generateSecureHashFrom (.structV c2Fields) "k" =
      generateSecureHashFrom
        (GoValue.structV [(⟨true, false, "", "batchid"⟩, GoValue.str "B1")]) "k" :=
  ⟨by rfl, secureHash_nested_header c2Fields _ _ "k" (by rfl) rfl⟩

/-- C3: when the decoded envelope's error list is present and non-empty,
`doRequest` returns it as the error outcome and never hands the raw content
to the caller's target type — a non-empty error aggregate and a content
decode are mutually exclusive. -/
theorem doRequest_error_list_precedence (rd : ResponseData) (errs : List String)
    (hp : rd.errors = some errs) (hne : errs ≠ []) :
    (processResponseData rd).2 = .apiErrors errs ∧
      ∀ raw, (processResponseData rd).2 ≠ .content (.decodeInto raw) := by
  constructor
  · simp [processResponseData, hp]
  · intro raw
    simp [processResponseData, hp]

/-- C3 witness: the theorem applied at a concrete enveloped error
response. -/
theorem doRequest_error_list_precedence_witness :
    (⟨1, "failed", some "[1,2]", "2022-09-23T17:04:43.506",
        some ["Error A", "Error B"]⟩ : ResponseData).errors = some ["Error A", "Error B"] ∧
    (["Error A", "Error B"] : List String) ≠ [] ∧
    ((processResponseData ⟨1, "failed", some "[1,2]", "2022-09-23T17:04:43.506",
        some ["Error A", "Error B"]⟩).2 = .apiErrors ["Error A", "Error B"] ∧
      ∀ raw, (processResponseData ⟨1, "failed", some "[1,2]",
        "2022-09-23T17:04:43.506", some ["Error A", "Error B"]⟩).2 ≠
          .content (.decodeInto raw)) :=
  ⟨rfl, by decide, doRequest_error_list_precedence _ _ rfl (by decide)⟩

/-- C4: with no configured credentials and no valid token (token empty, or
expiry set and already passed), `Client.Do` fails at the authentication
gate — before any network activity. -/
theorem do_fails_without_credentials (c : ClientAuth) (now : Nat)
    (hu : c.username = "") (hp : c.password = "")
    (htok : c.token = "" ∨ ∃ e, c.tokenExpiresAt = some e ∧ e < now) :
    doAuthGate c now = .failTokenExpired := by
  rcases htok with h | ⟨e, he, hlt⟩
  · simp [doAuthGate, h, hu, hp]
  · simp [doAuthGate, he, hu, hp, hlt]

/-- C4 witness: the theorem applied at a client with an expired token and
no credentials. -/
theorem do_fails_without_credentials_witness :
    (⟨"tok", some 3, "", ""⟩ : ClientAuth).username = "" ∧
    (⟨"tok", some 3, "", ""⟩ : ClientAuth).password = "" ∧
    ((⟨"tok", some 3, "", ""⟩ : ClientAuth).token = "" ∨
      ∃ e, (⟨"tok", some 3, "", ""⟩ : ClientAuth).tokenExpiresAt = some e ∧ e < 5) ∧
    doAuthGate ⟨"tok", some 3, "", ""⟩ 5 = .failTokenExpired :=
  ⟨rfl, rfl, Or.inr ⟨3, rfl, by decide⟩,
    do_fails_without_credentials _ 5 rfl rfl (Or.inr ⟨3, rfl, by decide⟩)⟩

/-- C5: the retry predicate retries a completed response exactly on 429 or
≥ 500; never retries when retries are disabled; returns the cancellation
error without retrying on a cancelled context; and never retries a 400. -/
theorem retryHTTPCheck_policy :
    (∀ code : Nat,
        (retryHTTPCheck false none none code).1 = true ↔ (code = 429 ∨ 500 ≤ code)) ∧
    (∀ (ctxErr err : Option String) (code : Nat),
        (retryHTTPCheck true ctxErr err code).1 = false) ∧
    (∀ (d : Bool) (err : Option String) (code : Nat) (ce : String),
        retryHTTPCheck d (some ce) err code = (false, some ce)) ∧
    (∀ (d : Bool) (ctxErr err : Option String),
        (retryHTTPCheck d ctxErr err 400).1 = false) := by
  refine ⟨?_, ?_, ?_, ?_⟩
  · intro code
    by_cases h : (code == 429 || decide (500 ≤ code)) = true
    · simp only [retryHTTPCheck, Bool.not_false, Bool.true_and, h, if_true]
      simpa using h
    · simp only [retryHTTPCheck, Bool.not_false, Bool.true_and, h, if_false]
      constructor
      · intro hc
        exact absurd hc (by simp)
      · intro hc
        exact absurd (by simpa using hc) h
  · intro ctxErr err code
    cases ctxErr <;> cases err <;> simp [retryHTTPCheck]
  · intro d err code ce
    simp [retryHTTPCheck]
  · intro d ctxErr err
    cases ctxErr <;> cases err <;> simp [retryHTTPCheck]

/-- C6: `Time.UnmarshalJSON` with no attached layout (the parseTimestamp
contract) tries the process-wide candidate layouts in order; the first
success wins whatever comes later, and when every candidate fails the
result is an error joining every per-layout failure in order. -/
theorem timeUnmarshal_first_layout_wins {α : Type}
    (parse : String → String → Except String α) (b : String) :
    (∀ (pre post : List String) (f : String) (t : α),
        (∀ g ∈ pre, parseFails (parse g (stripQuotes b)) = true) →
        parse f (stripQuotes b) = .ok t →
        timeUnmarshalJSON parse (pre ++ f :: post) "" b = ⟨some t, []⟩) ∧
    (∀ fmts : List String, fmts ≠ [] →
        (∀ f ∈ fmts, parseFails (parse f (stripQuotes b)) = true) →
        timeUnmarshalJSON parse fmts "" b =
          ⟨none, fmts.map (fun f => exceptErr (parse f (stripQuotes b)))⟩) := by
  constructor
  · intro pre post f t hfail hok
    exact tryFormats_first_success parse (stripQuotes b) f post t hok pre [] hfail
  · intro fmts _ hfail
    exact tryFormats_all_fail parse (stripQuotes b) fmts [] hfail

/-- A concrete stand-in for `time.Parse` used to witness C6. -/
def witnessParse (layout s : String) : Except String Nat :=
  if layout == s then .ok 7 else .error ("cannot parse as " ++ layout)

/-- C6 witness: the theorem applied with a concrete parser, a succeeding
layout list and an all-failing layout list. -/
theorem timeUnmarshal_first_layout_wins_witness :
    (∀ g ∈ ["a"], parseFails (witnessParse g (stripQuotes "\"b\"")) = true) ∧
    witnessParse "b" (stripQuotes "\"b\"") = Except.ok 7 ∧
    timeUnmarshalJSON witnessParse ["a", "b", "c"] "" "\"b\"" = ⟨some 7, []⟩ ∧
    (["a", "z"] : List String) ≠ [] ∧
    (∀ f ∈ ["a", "z"], parseFails (witnessParse f (stripQuotes "\"b\"")) = true) ∧
    timeUnmarshalJSON witnessParse ["a", "z"] "" "\"b\"" =
      ⟨none, ["a", "z"].map (fun f => exceptErr (witnessParse f (stripQuotes "\"b\"")))⟩ :=
  ⟨by decide, by rfl,
    (timeUnmarshal_first_layout_wins witnessParse "\"b\"").1 ["a"] ["c"] "b" 7
      (by decide) (by rfl),
    by decide, by decide,
    (timeUnmarshal_first_layout_wins witnessParse "\"b\"").2 ["a", "z"]
      (by decide) (by decide)⟩

/-- C7: the code evaluated at the failing input. `NewDate(2020-03-01)`
marshals through the embedded `time.Time`'s stdlib marshaler to the
RFC3339 form, not to the compact `YYYYMMDD` form that the claim, the
`NewDate` documentation and the `Time` layout mechanism prescribe —
`Date.MarshalJSON` reads `date.time` (the inner `time.Time`) instead of the
layout-aware wrapper. -/
theorem dateMarshalJSON_at_failing_input :
    dateMarshalJSON (NewDate ⟨2020, 3, 1, 0, 0, 0, 0⟩) = "\"2020-03-01T00:00:00Z\"" ∧
    dateMarshalJSON (NewDate ⟨2020, 3, 1, 0, 0, 0, 0⟩) ≠
      specDateSerialization ⟨2020, 3, 1, 0, 0, 0, 0⟩ ∧
    specDateSerialization ⟨2020, 3, 1, 0, 0, 0, 0⟩ = "\"20200301\"" := by
  refine ⟨by decide, by decide, by decide⟩

/-- C8 counterexample: the zero-value aggregate (`var e ResponseError`, a
nil slice) has zero additions yet JSON-serializes to `null`, not `[]`. -/
theorem responseError_zero_value_marshals_null :
    responseErrorMarshalJSON responseErrorZero = "null" ∧
    responseErrorMarshalJSON responseErrorZero ≠ "[]" := by
  decide

/-- C8 (amended): `Add` appends preserving insertion order, so the zero
value after `Add "x"; Add "y"` serializes to `["x","y"]`; an empty non-nil
aggregate serializes to `[]` (the nil zero value serializes to `null`); the
string form of a zero-message aggregate is empty, and with messages it is
their newline join. -/
theorem responseError_aggregate_behavior (e : ResponseErrorSlice) (msg : String) :
    responseErrorMarshalJSON (responseErrorAdd (responseErrorAdd responseErrorZero "x") "y") =
      "[\"x\",\"y\"]" ∧
    (responseErrorAdd e msg).elems = e.elems ++ [msg] ∧
    (responseErrorAdd e msg).isNil = false ∧
    responseErrorMarshalJSON ⟨false, []⟩ = "[]" ∧
    (e.elems = [] → responseErrorString e = "") ∧
    (e.elems ≠ [] → responseErrorString e = String.intercalate "\n" e.elems) := by
  refine ⟨by decide, rfl, rfl, by decide, ?_, ?_⟩
  · intro h
    simp [responseErrorString, responseErrorLen, h]
  · intro h
    rw [responseErrorString, if_neg (by simpa [responseErrorLen] using h)]

/-- C8 witness: the amended theorem applied at a concrete aggregate. -/
theorem responseError_aggregate_behavior_witness :
    ((responseErrorAdd responseErrorZero "Error A").elems ≠ [] ∧
      responseErrorString (responseErrorAdd responseErrorZero "Error A") =
        String.intercalate "\n" (responseErrorAdd responseErrorZero "Error A").elems) ∧
    responseErrorMarshalJSON (responseErrorAdd (responseErrorAdd responseErrorZero "x") "y") =
      "[\"x\",\"y\"]" :=
  ⟨⟨by decide,
    (responseError_aggregate_behavior (responseErrorAdd responseErrorZero "Error A") "m").2.2.2.2.2
      (by decide)⟩,
   (responseError_aggregate_behavior responseErrorZero "m").1⟩

/-- C9: `ensureSecureHash` leaves a request with a pre-supplied non-empty
hash unchanged; it writes the computed digest exactly when the hash field
is unset; and once a hash is set (pre-supplied or computed) a further pass
never recomputes it — computed digests are 128 characters, never empty. -/
theorem ensureSecureHash_precedence (key : String) (r : HashedRequest) :
    (r.secureHash ≠ "" → ensureSecureHash key r = some r) ∧
    (r.secureHash = "" → ensureSecureHash key r =
        (generateSecureHashFrom (hashedValue r) key).map
          (fun d => { r with secureHash := d })) ∧
    (∀ r2, ensureSecureHash key r = some r2 → ensureSecureHash key r2 = some r2) := by
  refine ⟨?_, ?_, ?_⟩
  · intro h
    rw [ensureSecureHash, if_neg (by simpa using h)]
  · intro h
    rw [ensureSecureHash, if_pos (by simpa using h)]
  · intro r2 h
    rw [ensureSecureHash] at h
    by_cases he : (r.secureHash == "") = true
    · rw [if_pos he] at h
      cases hg : generateSecureHashFrom (hashedValue r) key with
      | none => rw [hg] at h; exact Option.noConfusion h
      | some d =>
        rw [hg] at h
        have h2 : { r with secureHash := d } = r2 := Option.some.inj h
        have hd : d ≠ "" := by
          intro hcon
          have hlen := generateSecureHashFrom_some_length _ _ _ hg
          rw [hcon] at hlen
          simp at hlen
        rw [ensureSecureHash, if_neg (by rw [← h2]; simpa using hd)]
    · rw [if_neg he] at h
      injection h with h2
      rw [ensureSecureHash, ← h2, if_neg he]

/-- C9 witness: the theorem applied at a request with a pre-supplied
hash. -/
theorem ensureSecureHash_precedence_witness :
    (⟨[(⟨true, false, "", "requestId"⟩, GoValue.str "1")], "feedbeef"⟩ :
        HashedRequest).secureHash ≠ "" ∧
    ensureSecureHash "k" ⟨[(⟨true, false, "", "requestId"⟩, GoValue.str "1")], "feedbeef"⟩ =
      some ⟨[(⟨true, false, "", "requestId"⟩, GoValue.str "1")], "feedbeef"⟩ :=
  ⟨by decide,
    (ensureSecureHash_precedence "k"
      ⟨[(⟨true, false, "", "requestId"⟩, GoValue.str "1")], "feedbeef"⟩).1 (by decide)⟩

/-- C10: two requests identical except in values of unrecognized type (the
default case of the stringifier) on non-payment-header fields hash
identically for every key — such fields contribute the empty string. -/
theorem secureHash_ignores_unrecognized_values (fs1 fs2 : List (FieldMeta × GoValue))
    (key : String) (heq : List.Forall₂ hashEquivField fs1 fs2) :
    generateSecureHashFrom (.structV fs1) key = generateSecureHashFrom (.structV fs2) key := by
  rw [generateSecureHashFrom, generateSecureHashFrom]
  exact secureHashLoop_hashEquiv key fs1 fs2 "" heq

/-- C10 witness: the theorem applied at two concrete requests differing
only in an unrecognized-typed field's value. -/
theorem secureHash_ignores_unrecognized_values_witness :
    List.Forall₂ hashEquivField
      [(⟨true, false, "", "requestId"⟩, GoValue.str "1"),
       (⟨true, false, "", "extension"⟩, GoValue.other 0)]
      [(⟨true, false, "", "requestId"⟩, GoValue.str "1"),
       (⟨true, false, "", "extension"⟩, GoValue.other 1)] ∧
    generateSecureHashFrom
        (.structV [(⟨true, false, "", "requestId"⟩, GoValue.str "1"),
                   (⟨true, false, "", "extension"⟩, GoValue.other 0)]) "k" =
      generateSecureHashFrom
        (.structV [(⟨true, false, "", "requestId"⟩, GoValue.str "1"),
                   (⟨true, false, "", "extension"⟩, GoValue.other 1)]) "k" :=
  ⟨.cons ⟨rfl, Or.inl rfl⟩ (.cons ⟨rfl, Or.inr ⟨rfl, rfl, by decide⟩⟩ .nil),
    secureHash_ignores_unrecognized_values _ _ "k"
      (.cons ⟨rfl, Or.inl rfl⟩ (.cons ⟨rfl, Or.inr ⟨rfl, rfl, by decide⟩⟩ .nil))⟩

end Ecobank
